import Mathlib

/-!
Shallow embedding of the wire-protocol layer of `rust-zookeeper`
(`src/proto.rs`, `src/multi.rs`). Byte streams are lists of naturals
(each conceptually `< 256`); every encoder is a function to `List Nat`
and every decoder is a function from `List Nat` into `ReadRes`, which
distinguishes a successful parse (value plus remaining input), an
`io::Error` result, and a Rust panic (`unwrap` on a failed validation).
-/

namespace ZkProto

/-- Big-endian bytes of a 32-bit word; the argument is reduced mod `2^32`. -/
def be4 (n : Nat) : List Nat :=
  [n / 2 ^ 24 % 256, n / 2 ^ 16 % 256, n / 2 ^ 8 % 256, n % 256]

/-- `write_i32::<BigEndian>`: two's-complement big-endian bytes of an `i32`. -/
def i32be (v : Int) : List Nat := be4 (v % 2 ^ 32).toNat

/-- `write_u32::<BigEndian>`: big-endian bytes of a `u32`. -/
def u32Write (n : Nat) : List Nat := be4 n

/-- Result of running a decoder on a byte stream: success with the decoded
value and the remaining bytes, an `io::Error` (carrying its message), or a
Rust panic. -/
inductive ReadRes (α : Type) where
  | ok (value : α) (rest : List Nat)
  | err (msg : String)
  | crash
  deriving DecidableEq

/-- Sequencing of decoders, mirroring `try!` / `?` in the source. -/
def ReadRes.bind {α β : Type} (r : ReadRes α) (f : α → List Nat → ReadRes β) :
    ReadRes β :=
  match r with
  | .ok a rest => f a rest
  | .err e => .err e
  | .crash => .crash

/-- `read_u8`: one byte; EOF is an `io::Error`. -/
def readU8 : List Nat → ReadRes Nat
  | b :: rest => .ok b rest
  | [] => .err "failed to fill whole buffer"

/-- Big-endian recombination of four bytes. -/
def beJoin4 (b0 b1 b2 b3 : Nat) : Nat := ((b0 * 256 + b1) * 256 + b2) * 256 + b3

/-- Reinterpret an unsigned 32-bit word as a signed `i32`. -/
def asI32 (n : Nat) : Int := if n < 2 ^ 31 then (n : Int) else (n : Int) - 2 ^ 32

/-- `read_i32::<BigEndian>`: four bytes, big-endian, two's complement. -/
def readI32 : List Nat → ReadRes Int
  | b0 :: b1 :: b2 :: b3 :: rest => .ok (asI32 (beJoin4 b0 b1 b2 b3)) rest
  | _ => .err "failed to fill whole buffer"

/-- `read_u32::<BigEndian>`: four bytes, big-endian, unsigned. -/
def readU32 : List Nat → ReadRes Nat
  | b0 :: b1 :: b2 :: b3 :: rest => .ok (beJoin4 b0 b1 b2 b3) rest
  | _ => .err "failed to fill whole buffer"

/-- `BufferReader::read_buffer` (proto.rs): a signed 32-bit length prefix, a
negative length clamped to zero, then that many raw bytes; `Read::read` on an
in-memory stream delivers `min` of the request and what is available, and a
short read is reported as an `io::Error` with message `read_buffer failed`. -/
def readBuffer (input : List Nat) : ReadRes (List Nat) :=
  (readI32 input).bind fun len rest =>
    let n := if len < 0 then 0 else len.toNat
    let readCount := min n rest.length
    if readCount = n then .ok (rest.take n) (rest.drop n)
    else .err "read_buffer failed"

/-- Bool-valued range test on a byte. -/
def inR (lo hi b : Nat) : Bool := decide (lo ≤ b) && decide (b < hi)

/-- A UTF-8 continuation byte, `0x80 ..= 0xBF`. -/
def isUtf8Cont (b : Nat) : Bool := inR 128 192 b

/-- Strict UTF-8 validity of a byte sequence, as enforced by Rust's
`String::from_utf8` (rejecting overlong forms, surrogates and values beyond
`U+10FFFF`). -/
def validUtf8 : List Nat → Bool
  | [] => true
  | b :: rest =>
    if b < 128 then validUtf8 rest
    else if b < 194 then false
    else if b < 224 then
      match rest with
      | c1 :: r => isUtf8Cont c1 && validUtf8 r
      | [] => false
    else if b < 240 then
      match rest with
      | c1 :: c2 :: r =>
        (if b = 224 then inR 160 192 c1
         else if b = 237 then inR 128 160 c1
         else isUtf8Cont c1) && isUtf8Cont c2 && validUtf8 r
      | _ => false
    else if b < 245 then
      match rest with
      | c1 :: c2 :: c3 :: r =>
        (if b = 240 then inR 144 192 c1
         else if b = 244 then inR 128 144 c1
         else isUtf8Cont c1) && isUtf8Cont c2 && isUtf8Cont c3 && validUtf8 r
      | _ => false
    else false

/-- `StringReader::read_string` (proto.rs): a buffer decode followed by
`String::from_utf8(raw).unwrap()`. The string value is represented by its
UTF-8 bytes; an invalid byte sequence makes the `unwrap` panic (`crash`). -/
def readString (input : List Nat) : ReadRes (List Nat) :=
  (readBuffer input).bind fun raw rest =>
    if validUtf8 raw then .ok raw rest else .crash

/-- `String::write_to` (proto.rs): the byte length as an `i32` followed by
the string's UTF-8 bytes. -/
def stringWriteTo (s : List Nat) : List Nat := i32be s.length ++ s

/-- `Vec<u8>::write_to` (via the generic `Vec<T>` instance and `u8`'s
`write_to`): the element count as an `i32` followed by the raw bytes. -/
def bufferWriteTo (d : List Nat) : List Nat := i32be d.length ++ d

/-- Modelled from the spec: the ACL permission bitmask ("bitmask decoded from
an unsigned 32-bit field into a set of named permissions"). The `acl` module
with `Permission::from_raw` and `Permission::code` is not among the given
sources, so the set of named permissions is represented by its raw u32 code. -/
structure Permission where
  raw : Nat
  deriving DecidableEq

/-- Modelled from the spec: `Permission::code`, the raw u32 bitmask. -/
def Permission.code (p : Permission) : Nat := p.raw % 2 ^ 32

/-- Modelled from the spec: `Permission::from_raw`, reading a u32 bitmask. -/
def Permission.from_raw (r : Nat) : Permission := ⟨r % 2 ^ 32⟩

/-- `Acl` (acl module): permission bitmask, scheme string, identity string.
Strings are represented by their UTF-8 bytes. -/
structure Acl where
  perms : Permission
  scheme : List Nat
  id : List Nat
  deriving DecidableEq

/-- `Acl::write_to` (proto.rs): `{perms.code(): u32, scheme: string,
id: string}`. -/
def Acl.write_to (a : Acl) : List Nat :=
  u32Write a.perms.code ++ stringWriteTo a.scheme ++ stringWriteTo a.id

/-- `Acl::read_from` (proto.rs): a u32 bitmask through `Permission::from_raw`,
then the scheme and identity strings. -/
def Acl.read_from (input : List Nat) : ReadRes Acl :=
  (readU32 input).bind fun r rest1 =>
  (readString rest1).bind fun scheme rest2 =>
  (readString rest2).bind fun id rest3 =>
  .ok ⟨Permission.from_raw r, scheme, id⟩ rest3

/-- `Vec<Acl>::write_to` (via the generic `Vec<T>` instance): element count as
an `i32`, then each entry in order. -/
def aclVecWriteTo (acl : List Acl) : List Nat :=
  i32be acl.length ++ (acl.map Acl.write_to).flatten

/-- `Stat` (data module): eleven fixed-width integer fields. -/
structure Stat where
  czxid : Int
  mzxid : Int
  ctime : Int
  mtime : Int
  version : Int
  cversion : Int
  aversion : Int
  ephemeral_owner : Int
  data_length : Int
  num_children : Int
  pzxid : Int
  deriving DecidableEq

/-- `OpCode` (proto.rs). -/
inductive OpCode where
  | Auth | Create | Delete | Exists | GetAcl | SetAcl | GetChildren
  | GetData | SetData | Ping | Check | Transaction | CloseSession
  deriving DecidableEq

/-- The fixed integer value of each `OpCode` discriminant (proto.rs). -/
def OpCode.code : OpCode → Int
  | .Auth => 100
  | .Create => 1
  | .Delete => 2
  | .Exists => 3
  | .GetAcl => 6
  | .SetAcl => 7
  | .GetChildren => 8
  | .GetData => 4
  | .SetData => 5
  | .Ping => 11
  | .Check => 13
  | .Transaction => 14
  | .CloseSession => -11

/-- `Op` (multi.rs): one step of a transaction. `CreateMode` lives in the
`consts` module, which is not among the given sources; modelled from the spec
("an enumeration module supplying creation-mode codes") by its i32 code. -/
inductive Op where
  | Check (path : List Nat) (version : Option Int)
  | Create (path : List Nat) (data : List Nat) (acl : List Acl) (mode : Int)
  | Delete (path : List Nat) (version : Option Int)
  | SetData (path : List Nat) (data : List Nat) (version : Option Int)

/-- `OpResult` (multi.rs): one step's transaction outcome. -/
inductive OpResult where
  | Empty
  | Create (path : List Nat)
  | SetData (stat : Stat)
  deriving DecidableEq

/-- The first `match` in `TransactionRequest::write_to` (proto.rs): the
`OpCode` chosen for each `Op` variant. -/
def Op.typeCode : Op → OpCode
  | .Check _ _ => .Check
  | .Create _ _ _ _ => .Create
  | .Delete _ _ => .Delete
  | .SetData _ _ _ => .SetData

/-- The second `match` in `TransactionRequest::write_to` (proto.rs): the
field payload of one transaction entry; absent versions are written as
`version.unwrap_or(-1)` and `Create` ends with `mode.clone() as i32`. -/
def Op.payload : Op → List Nat
  | .Check path version => stringWriteTo path ++ i32be (version.getD (-1))
  | .Create path data acl mode =>
      stringWriteTo path ++ bufferWriteTo data ++ aclVecWriteTo acl ++ i32be mode
  | .Delete path version => stringWriteTo path ++ i32be (version.getD (-1))
  | .SetData path data version =>
      stringWriteTo path ++ bufferWriteTo data ++ i32be (version.getD (-1))

/-- `TransactionRequest::write_to` (proto.rs): for each operation a header
`{type_code: i32, done: u8 = 0, err: i32 = -1}` and its payload, then the
closing entry `{-1, 1, -1}`. -/
def TransactionRequest.write_to : List Op → List Nat
  | [] => i32be (-1) ++ [1] ++ i32be (-1)
  | op :: rest =>
      (i32be (Op.typeCode op).code ++ [0] ++ i32be (-1)) ++ Op.payload op ++
        TransactionRequest.write_to rest

/-- `TransactionResponse::read_from` (proto.rs) as it stands in the source:
the decoding loop is commented out and the function returns
`Ok(TransactionResponse { responses: vec![] })`, reading nothing. A `ZkError`
is represented by its i32 code. -/
def TransactionResponse.read_from (input : List Nat) :
    ReadRes (List (Except Int OpResult)) :=
  .ok [] input

/-- `RequestHeader` (proto.rs). -/
structure RequestHeader where
  xid : Int
  opcode : OpCode

/-- `RequestHeader::write_to` (proto.rs): `{xid: i32, opcode as i32}`. -/
def RequestHeader.write_to (rh : RequestHeader) : List Nat :=
  i32be rh.xid ++ i32be rh.opcode.code

/-- `Cursor<Vec<u8>>`: an in-memory buffer with a write position. -/
structure Cursor where
  data : List Nat
  pos : Nat

/-- Writing bytes into a vector at a position: bytes before the position are
kept, a gap beyond the current end is zero-filled, the written bytes overwrite
what was there, and bytes after the written region are kept. -/
def writeAt (data : List Nat) (pos : Nat) (bs : List Nat) : List Nat :=
  data.take pos ++ List.replicate (pos - data.length) 0 ++ bs ++
    data.drop (pos + bs.length)

/-- A sequence of byte writes at the cursor's position. -/
def Cursor.write (c : Cursor) (bs : List Nat) : Cursor :=
  ⟨writeAt c.data c.pos bs, c.pos + bs.length⟩

/-- `Cursor::set_position`. -/
def Cursor.setPos (c : Cursor) (p : Nat) : Cursor := ⟨c.data, p⟩

/-- `to_len_prefixed_buf` (proto.rs, free function): reserve four bytes by
seeking to position 4, write the request header then the body, measure
`len = position - 4`, seek back to 0 and write `len as i32`, and rewind. -/
def to_len_prefixed_buf (rh : RequestHeader) (reqBytes : List Nat) : Cursor :=
  let buf := Cursor.mk [] 0
  let buf := buf.setPos 4
  let buf := buf.write (RequestHeader.write_to rh)
  let buf := buf.write reqBytes
  let len := buf.pos - 4
  let buf := buf.setPos 0
  let buf := buf.write (i32be len)
  buf.setPos 0

/-- The per-entry header of a transaction request: `{type_code: i32,
done: u8 = 0, err: i32 = -1}`. -/
def multiHeader (tc : Int) : List Nat := i32be tc ++ [0] ++ i32be (-1)

/-- The terminal entry of a transaction request: `{type_code: -1, done: 1,
err: -1}`, no payload. -/
def multiTerminal : List Nat := i32be (-1) ++ [1] ++ i32be (-1)

/-- A one-operation transaction, `[Check { path: "/", version: None }]`
(the path `"/"` is the byte 47). -/
def c1Ops : List Op := [Op.Check [47] none]

/-- The reply stream matching `c1Ops`: one successful entry
`{type_code: 0 (empty completion), done: 0, err: -1}` with no payload,
then the terminal sentinel `{-1, 1, -1}`. -/
def c1Reply : List Nat :=
  (i32be 0 ++ [0] ++ i32be (-1)) ++ (i32be (-1) ++ [1] ++ i32be (-1))

/-- A three-operation transaction `[Check "/", Delete "/a", Check "/"]`. -/
def c2Ops : List Op :=
  [Op.Check [47] none, Op.Delete [47, 97] none, Op.Check [47] none]

/-- The reply stream for `c2Ops` whose middle entry carries the service error
`-110` in its header: `{0, 0, -1}`, `{0, 0, -110}`, `{0, 0, -1}`, then the
terminal sentinel `{-1, 1, -1}`. -/
def c2Reply : List Nat :=
  (i32be 0 ++ [0] ++ i32be (-1)) ++ (i32be 0 ++ [0] ++ i32be (-110)) ++
    (i32be 0 ++ [0] ++ i32be (-1)) ++ (i32be (-1) ++ [1] ++ i32be (-1))

/-- A length-prefixed string whose single payload byte `0xFF` is not valid
UTF-8 anywhere in a UTF-8 sequence. -/
def c7Input : List Nat := [0, 0, 0, 1, 255]

/-! ## Helper lemmas -/

theorem i32be_len (v : Int) : (i32be v).length = 4 := rfl

theorem readI32_i32be (v : Int) (h1 : -(2 ^ 31) ≤ v) (h2 : v < 2 ^ 31)
    (rest : List Nat) : readI32 (i32be v ++ rest) = .ok v rest := by
  simp only [i32be, be4, List.cons_append, List.nil_append, readI32]
  congr 1
  unfold beJoin4 asI32
  split <;> omega

theorem readU32_u32Write (c : Nat) (h : c < 2 ^ 32) (rest : List Nat) :
    readU32 (u32Write c ++ rest) = .ok c rest := by
  simp only [u32Write, be4, List.cons_append, List.nil_append, readU32]
  congr 1
  unfold beJoin4
  omega

theorem readBuffer_of_write (s rest : List Nat) (h : s.length < 2 ^ 31) :
    readBuffer (i32be (s.length : Int) ++ (s ++ rest)) = .ok s rest := by
  unfold readBuffer
  rw [readI32_i32be (s.length : Int) (by omega) (by omega)]
  have h0 : ¬ ((s.length : Int) < 0) := by omega
  simp only [ReadRes.bind, if_neg h0, Int.toNat_natCast]
  have hmin : min s.length (s ++ rest).length = s.length :=
    Nat.min_eq_left (by simp)
  rw [hmin, if_pos rfl, List.take_left, List.drop_left]

theorem readString_of_write (s rest : List Nat) (hv : validUtf8 s = true)
    (h : s.length < 2 ^ 31) :
    readString (stringWriteTo s ++ rest) = .ok s rest := by
  unfold readString stringWriteTo
  rw [List.append_assoc, readBuffer_of_write s rest h]
  simp [ReadRes.bind, hv]

theorem writeAt_append (l bs : List Nat) : writeAt l l.length bs = l ++ bs := by
  simp [writeAt, List.drop_eq_nil_of_le]

/-! ## Claim theorems -/

/-- Claim C10: `TransactionResponse::read_from` as written in the source
returns success with an empty outcome list and consumes no input bytes, for
every input stream — its decoding loop is commented out. -/
theorem transaction_response_read_from_stub :
    ∀ input : List Nat,
      TransactionResponse.read_from input =
        ReadRes.ok ([] : List (Except Int OpResult)) input :=
  fun _ => rfl

/-- Claim C1 (code bug): on the synthetic reply stream matching the encoded
one-operation transaction `c1Ops`, the source's decoder produces zero
outcomes instead of one — its decoding loop is commented out and it returns
an empty list without reading the stream. -/
theorem transaction_reply_decode_loses_outcomes :
    TransactionResponse.read_from c1Reply =
      ReadRes.ok ([] : List (Except Int OpResult)) c1Reply ∧
      c1Ops.length = 1 :=
  ⟨rfl, rfl⟩

/-- Claim C2 (code bug): on a reply stream for the three-operation
transaction `c2Ops` whose middle entry header carries `err = -110`, the
source's decoder returns an empty outcome list instead of three outcomes with
an error outcome at position 1. -/
theorem transaction_reply_decode_loses_mid_error :
    TransactionResponse.read_from c2Reply =
      ReadRes.ok ([] : List (Except Int OpResult)) c2Reply ∧
      c2Ops.length = 3 :=
  ⟨rfl, rfl⟩

/-- Claim C7 (code bug): `read_string` performs a buffer decode followed by
strict UTF-8 validation, but on invalid UTF-8 payload bytes it panics
(`String::from_utf8(raw).unwrap()`) instead of returning a decode error. -/
theorem read_string_invalid_utf8_crashes :
    readString c7Input = ReadRes.crash ∧
      readBuffer c7Input = ReadRes.ok [255] [] ∧
      validUtf8 [255] = false := by
  decide

/-- Claim C5: a negative signed 32-bit length prefix makes `read_buffer`
succeed with an empty buffer, consuming exactly the four prefix bytes. -/
theorem read_buffer_negative_length (b0 b1 b2 b3 : Nat) (rest : List Nat)
    (h : asI32 (beJoin4 b0 b1 b2 b3) < 0) :
    readBuffer (b0 :: b1 :: b2 :: b3 :: rest) = ReadRes.ok [] rest := by
  unfold readBuffer readI32
  simp [ReadRes.bind, if_pos h]

theorem read_buffer_negative_length_witness :
    asI32 (beJoin4 255 255 255 255) < 0 ∧
      readBuffer [255, 255, 255, 255, 9, 9] = ReadRes.ok [] [9, 9] :=
  ⟨by decide, read_buffer_negative_length 255 255 255 255 [9, 9] (by decide)⟩

/-- Claim C6: when the declared buffer length exceeds the bytes available,
`read_buffer` returns the framing error `read_buffer failed` and never a
partial value. -/
theorem read_buffer_truncated_error (b0 b1 b2 b3 : Nat) (rest : List Nat)
    (h0 : 0 ≤ asI32 (beJoin4 b0 b1 b2 b3))
    (h1 : rest.length < (asI32 (beJoin4 b0 b1 b2 b3)).toNat) :
    readBuffer (b0 :: b1 :: b2 :: b3 :: rest) =
      ReadRes.err "read_buffer failed" := by
  unfold readBuffer readI32
  have hneg : ¬ (asI32 (beJoin4 b0 b1 b2 b3) < 0) := by omega
  simp only [ReadRes.bind, if_neg hneg]
  rw [if_neg (by omega)]

theorem read_buffer_truncated_error_witness :
    0 ≤ asI32 (beJoin4 0 0 0 5) ∧ ([1, 2] : List Nat).length < (asI32 (beJoin4 0 0 0 5)).toNat ∧
      readBuffer [0, 0, 0, 5, 1, 2] = ReadRes.err "read_buffer failed" :=
  ⟨by decide, by decide,
    read_buffer_truncated_error 0 0 0 5 [1, 2] (by decide) (by decide)⟩

/-- Claim C4: in the transaction encoder, a `Check`, `Delete` or `SetData`
operation with an absent version is written with the `i32` sentinel `-1` in
the version position, and a present version is written as its own value. -/
theorem version_sentinel_encoding :
    ∀ (p d : List Nat) (v : Int),
      Op.payload (Op.Check p none) = stringWriteTo p ++ i32be (-1) ∧
      Op.payload (Op.Check p (some v)) = stringWriteTo p ++ i32be v ∧
      Op.payload (Op.Delete p none) = stringWriteTo p ++ i32be (-1) ∧
      Op.payload (Op.Delete p (some v)) = stringWriteTo p ++ i32be v ∧
      Op.payload (Op.SetData p d none) =
        stringWriteTo p ++ bufferWriteTo d ++ i32be (-1) ∧
      Op.payload (Op.SetData p d (some v)) =
        stringWriteTo p ++ bufferWriteTo d ++ i32be v :=
  fun _ _ _ => ⟨rfl, rfl, rfl, rfl, rfl, rfl⟩

/-- Claim C3: the transaction encoder emits, for each operation in order, the
header `{type_code, done = 0, err = -1}` with the type code matching the
operation's variant opcode, followed by the operation's payload, and after
the last operation the terminal entry `{-1, 1, -1}` — also when the
operation list is empty. -/
theorem transaction_encode_layout :
    (∀ ops : List Op,
        TransactionRequest.write_to ops =
          (ops.map fun op =>
            multiHeader (Op.typeCode op).code ++ Op.payload op).flatten ++
            multiTerminal) ∧
      TransactionRequest.write_to [] = multiTerminal ∧
      OpCode.Check.code = 13 ∧ OpCode.Create.code = 1 ∧
      OpCode.Delete.code = 2 ∧ OpCode.SetData.code = 5 ∧
      (∀ p v, (Op.Check p v).typeCode = OpCode.Check) ∧
      (∀ p d a m, (Op.Create p d a m).typeCode = OpCode.Create) ∧
      (∀ p v, (Op.Delete p v).typeCode = OpCode.Delete) ∧
      (∀ p d v, (Op.SetData p d v).typeCode = OpCode.SetData) := by
  refine ⟨?_, rfl, rfl, rfl, rfl, rfl, fun _ _ => rfl, fun _ _ _ _ => rfl,
    fun _ _ => rfl, fun _ _ _ => rfl⟩
  intro ops
  induction ops with
  | nil => rfl
  | cons op rest ih =>
      simp [TransactionRequest.write_to, multiHeader, ih, List.append_assoc]

/-- Claim C8: frame assembly produces
`[i32 total length][RequestHeader][operation body]`, where the length field
holds the byte count of the encoded header plus body and excludes the 4-byte
length field itself (the full frame is 4 bytes longer than the count). -/
theorem to_len_prefixed_buf_layout (rh : RequestHeader) (body : List Nat) :
    (to_len_prefixed_buf rh body).data =
        i32be (((RequestHeader.write_to rh ++ body).length : Nat) : Int) ++
          (RequestHeader.write_to rh ++ body) ∧
      (to_len_prefixed_buf rh body).data.length =
        4 + (RequestHeader.write_to rh ++ body).length := by
  set hdr := RequestHeader.write_to rh with hdef
  have e1 : writeAt [] 4 hdr = List.replicate 4 0 ++ hdr := by
    simp [writeAt]
  have e1len : (List.replicate 4 0 ++ hdr).length = 4 + hdr.length := by
    simp only [List.length_append, List.length_replicate]
  have e2 : writeAt (List.replicate 4 0 ++ hdr) (4 + hdr.length) body =
      List.replicate 4 0 ++ (hdr ++ body) := by
    rw [← e1len, writeAt_append, List.append_assoc]
  have hd4 : ∀ l : List Nat, (List.replicate 4 0 ++ l).drop 4 = l :=
    fun _ => rfl
  have e3 : writeAt (List.replicate 4 0 ++ (hdr ++ body)) 0
      (i32be ((hdr.length + body.length : Nat) : Int)) =
      i32be ((hdr.length + body.length : Nat) : Int) ++ (hdr ++ body) := by
    simp [writeAt, hd4, i32be_len]
  have hlen : (4 + hdr.length + body.length) - 4 = hdr.length + body.length := by
    omega
  have hdata : (to_len_prefixed_buf rh body).data =
      i32be ((hdr.length + body.length : Nat) : Int) ++ (hdr ++ body) := by
    show writeAt (writeAt (writeAt [] 4 hdr) (4 + hdr.length) body) 0
        (i32be (((4 + hdr.length + body.length) - 4 : Nat) : Int)) = _
    rw [hlen, e1, e2, e3]
  constructor
  · rw [hdata, List.length_append]
  · rw [hdata]
    simp [i32be_len]

/-- Claim C9: an `Acl` entry whose permission bitmask round-trips through its
raw u32 code decodes, from the bytes its encoder produced, back to itself in
the field order `{bitmask, scheme, identity}` — also with empty strings. The
strings are Rust `String`s, so their bytes are valid UTF-8, and the model
assumes their byte length stays below `2^31` (beyond that the `len as i32`
length prefix of the wire format wraps). -/
theorem acl_roundtrip (a : Acl) (rest : List Nat)
    (hperm : Permission.from_raw a.perms.code = a.perms)
    (hs : validUtf8 a.scheme = true) (hslen : a.scheme.length < 2 ^ 31)
    (hi : validUtf8 a.id = true) (hilen : a.id.length < 2 ^ 31) :
    Acl.read_from (Acl.write_to a ++ rest) = ReadRes.ok a rest := by
  unfold Acl.write_to Acl.read_from
  rw [List.append_assoc, List.append_assoc]
  have hc : a.perms.code < 2 ^ 32 := Nat.mod_lt _ (by norm_num)
  rw [readU32_u32Write _ hc]
  simp only [ReadRes.bind]
  rw [readString_of_write _ _ hs hslen]
  simp only [ReadRes.bind]
  rw [readString_of_write _ _ hi hilen]
  simp only [ReadRes.bind]
  rw [hperm]

theorem acl_roundtrip_witness :
    Permission.from_raw (Permission.code ⟨5⟩) = (⟨5⟩ : Permission) ∧
      validUtf8 [] = true ∧ ([] : List Nat).length < 2 ^ 31 ∧
      Acl.read_from (Acl.write_to ⟨⟨5⟩, [], []⟩ ++ [7]) =
        ReadRes.ok ⟨⟨5⟩, [], []⟩ [7] :=
  ⟨by decide, by decide, by decide,
    acl_roundtrip ⟨⟨5⟩, [], []⟩ [7] (by decide) (by decide) (by decide)
      (by decide) (by decide)⟩

end ZkProto
